import Mathlib

/-!
Verification development for the Scatter repository.

The embedded code is `scatter/ssh.py` (the data model `ExecResult` and
`ExecOptions`, the connection helper `_connect`, the command helper
`_run_command`, the per-host session executor `run_on_host`, and the
dispatcher `execute_on_hosts`) together with the exit-code computation of
the `run` command in `scatter/cli.py`.

Modelling conventions:
- The external transport (the `asyncssh` library) is a black box.  Its
  responses are an explicit environment (`HostEnv`): for every connection
  attempt the environment says whether `asyncssh.connect` raises, and, once
  connected, what `conn.run` does (returns a completed process or raises).
  A Python exception value is modelled by `Exc`: its type name, its message,
  and whether it is an instance of the retried classes
  `(asyncssh.Error, OSError)`.
- The retry loop of `run_on_host` is driven by the `tenacity` library with
  `stop_after_attempt(max(1, options.retry_attempts))`,
  `wait_exponential(multiplier=0.5, min=0.5, max=5)`,
  `retry=retry_if_exception_type((asyncssh.Error, OSError))` and
  `reraise=True`.  The loop (`retryLoop`) and the wait formula
  (`wait_exponential`, which computes
  `clamp(multiplier * exp_base ^ (attempt_number - 1))` between `min` and
  `max`) are translated from the tenacity sources.
- `time.perf_counter()` values are abstracted as rational parameters; no
  claim depends on them.
- Machine floats (`connect_timeout`, backoff delays) are modelled as `Rat`;
  every number appearing in the program is exactly representable.
- `asyncio` cooperative scheduling is modelled twice, matching what the
  claims need: a functional model (`execute_on_hosts` plus the
  order-insensitive collection function `gatherFill`) and a small-step
  machine (`SemStep`) for the semaphore that bounds how many session bodies
  run concurrently.
-/

namespace Scatter

/-- A Python exception value as observed by `run_on_host`: the class name
(`type(exc).__name__`), the message (`str(exc)`), and whether the value is
an instance of the retried exception classes `(asyncssh.Error, OSError)`
from ssh.py line 119.  Every value of this type models an instance of the
Python class `Exception`. -/
structure Exc where
  name : String
  msg : String
  retryable : Bool
deriving DecidableEq, Repr

/-- The string `f"..."` built at ssh.py line 150: the exception class name,
a colon and a space, then the message. -/
def Exc.render (e : Exc) : String :=
  e.name ++ ": " ++ e.msg

/-- `ExecResult` dataclass, ssh.py lines 27-50.  Timestamps are the abstract
`time.perf_counter()` readings. -/
structure ExecResult where
  host : String
  exit_status : Option Int
  stdout : String
  stderr : String
  ok : Bool
  started_at : Rat
  ended_at : Rat
  error : Option String := none
deriving DecidableEq, Repr

/-- `ExecOptions` dataclass, ssh.py lines 53-70.  `identity` is the path as
a string (the code only ever converts it with `str`). -/
structure ExecOptions where
  username : Option String
  port : Option Int
  identity : Option String
  password : Option String
  known_hosts : String
  connect_timeout : Rat
  pty : Bool
  limit : Int
  command_timeout : Option Rat := none
  retry_attempts : Int := 1
deriving DecidableEq, Repr

/-- The keyword arguments passed to `asyncssh.connect`, ssh.py lines 81-98.
Fields that are only set conditionally (`client_keys`, `password`) are
`none` when absent. -/
structure ConnectKwargs where
  host : String
  port : Int
  username : Option String
  connect_timeout : Rat
  agent_forwarding : Bool
  client_keys : Option (List String)
  password : Option String
  known_hosts : Option String
deriving DecidableEq, Repr

/-- `_connect`, ssh.py lines 73-98, up to the transport call: the dictionary
of keyword arguments it builds.
- `port := options.port or 22`: a `None` or `0` port becomes 22 (Python
  truthiness).
- `client_keys` is set iff `options.identity` is present (a `Path` value is
  always truthy).
- `password` is set iff `options.password` is truthy, so an empty string is
  treated like `None`.
- `known_hosts` is unconditionally overwritten with `None` at line 96. -/
def connect_kwargs (host : String) (options : ExecOptions) : ConnectKwargs :=
  { host := host
    port := match options.port with
            | some p => if p = 0 then 22 else p
            | none => 22
    username := options.username
    connect_timeout := options.connect_timeout
    agent_forwarding := true
    client_keys := match options.identity with
                   | some i => some [i]
                   | none => none
    password := match options.password with
                | some p => if p = "" then none else some p
                | none => none
    known_hosts := none }

/-- The arguments passed to `conn.run` by `_run_command`, ssh.py line 103. -/
structure RunKwargs where
  command : String
  check : Bool
  timeout : Option Rat
  term_type : Option String
deriving DecidableEq, Repr

/-- `_run_command`, ssh.py lines 101-103: the call
`conn.run(command, check=False, timeout=options.command_timeout,
term_type="xterm" if options.pty else None)`. -/
def run_kwargs (command : String) (options : ExecOptions) : RunKwargs :=
  { command := command
    check := false
    timeout := options.command_timeout
    term_type := if options.pty then some "xterm" else none }

/-- Outcome of one `conn.run` call as delivered by the transport: either an
`asyncssh.SSHCompletedProcess` (whose `exit_status` is `None` when the
remote process reported no exit status, e.g. was killed by a signal, and
whose output streams may be absent) or a raised exception. -/
inductive RunBehavior where
  | completes (exit_status : Option Int) (stdout stderr : Option String) : RunBehavior
  | raises (e : Exc) : RunBehavior
deriving DecidableEq, Repr

/-- The transport responses for one host: what `asyncssh.connect` does on
the n-th connection attempt (1-based) given the keyword arguments, what
`conn.run` does on that attempt given its arguments, and whether
`conn.close()` / `conn.wait_closed()` raise.  Exceptions raised by the
close calls are swallowed by the inner handler at ssh.py lines 136-140, so
`closeExc` is never consulted by the model; keeping the field makes that
fact provable (the run is invariant under changing it). -/
structure HostEnv where
  connect : ConnectKwargs → Nat → Except Exc Unit
  run : RunKwargs → Nat → RunBehavior
  closeExc : Nat → Option Exc

/-- The `ExecResult` built at ssh.py lines 126-134 from a completed process:
`exit_status` is copied, missing output streams become empty strings
(`completed.stdout or ""`), `ok` is the Python comparison
`completed.exit_status == 0` (false when `exit_status` is `None`), and
`error` keeps its default `None`. -/
def completedResult (host : String) (started ended : Rat)
    (exit_status : Option Int) (stdout stderr : Option String) : ExecResult :=
  { host := host
    exit_status := exit_status
    stdout := stdout.getD ""
    stderr := stderr.getD ""
    ok := decide (exit_status = some 0)
    started_at := started
    ended_at := ended
    error := none }

/-- The `ExecResult` built at ssh.py lines 142-151 when the retry loop let
an exception escape. -/
def errorResult (host : String) (started ended : Rat) (e : Exc) : ExecResult :=
  { host := host
    exit_status := none
    stdout := ""
    stderr := ""
    ok := false
    started_at := started
    ended_at := ended
    error := some e.render }

/-- The body of one retry attempt, ssh.py lines 122-140: call `_connect`;
on success run the command on the connection and build the success result,
then close the connection (close failures are swallowed, so the close
outcome does not appear).  The body either returns an `ExecResult` (the
`return` at line 126) or raises an exception (`Except.error`). -/
def attemptBody (host : String) (started ended : Rat) (ck : ConnectKwargs)
    (rk : RunKwargs) (env : HostEnv) (n : Nat) : Except Exc ExecResult :=
  match env.connect ck n with
  | Except.error e => Except.error e
  | Except.ok _ =>
    match env.run rk n with
    | RunBehavior.completes es out err =>
        Except.ok (completedResult host started ended es out err)
    | RunBehavior.raises e => Except.error e

/-- Tenacity `wait_exponential(multiplier, max, exp_base := 2, min)` from
tenacity/wait.py: the wait after the failed attempt numbered
`attempt_number` (1-based) is
`max(max(0, min), min(multiplier * 2 ^ (attempt_number - 1), max))`. -/
def wait_exponential (multiplier mn mx : Rat) (attempt_number : Nat) : Rat :=
  max (max 0 mn) (min (multiplier * 2 ^ (attempt_number - 1)) mx)

/-- The wait used by `run_on_host`, ssh.py line 118:
`wait_exponential(multiplier=0.5, min=0.5, max=5)`. -/
def backoffWait (attempt_number : Nat) : Rat :=
  wait_exponential (1/2) (1/2) 5 attempt_number

/-- The attempt budget, ssh.py line 117:
`stop_after_attempt(max(1, options.retry_attempts))`. -/
def stopBudget (retry_attempts : Int) : Nat :=
  (max 1 retry_attempts).toNat

/-- Trace of one tenacity retry loop: the final outcome (a returned result
or the exception that escaped the loop), the number of attempts made (each
attempt starts with one `_connect` call), and the backoff waits slept
between consecutive attempts, in order. -/
structure LoopOut where
  outcome : Except Exc ExecResult
  attempts : Nat
  waits : List Rat
deriving Repr

/-- The `AsyncRetrying` loop of ssh.py lines 116-140 with the configuration
above, translated from tenacity (`BaseRetrying.iter`): run the attempt
body; a returned result ends the loop; a raised exception ends the loop
immediately when it is not an instance of the retried classes, and
otherwise the loop sleeps `backoffWait n` and retries while the stop
condition `attempt_number >= stop_budget` has not been reached, reraising
the last exception when it has (`reraise=True`).  `fuel` is the number of
attempts still allowed after the current one (so the initial call uses
`fuel = stopBudget - 1`), and `n` is the 1-based number of the current
attempt. -/
def retryLoop (host : String) (started ended : Rat) (ck : ConnectKwargs)
    (rk : RunKwargs) (env : HostEnv) : Nat → Nat → LoopOut
  | 0, n =>
    match attemptBody host started ended ck rk env n with
    | Except.ok r => ⟨Except.ok r, 1, []⟩
    | Except.error e => ⟨Except.error e, 1, []⟩
  | fuel + 1, n =>
    match attemptBody host started ended ck rk env n with
    | Except.ok r => ⟨Except.ok r, 1, []⟩
    | Except.error e =>
      if e.retryable then
        let rest := retryLoop host started ended ck rk env fuel (n + 1)
        ⟨rest.outcome, rest.attempts + 1, backoffWait n :: rest.waits⟩
      else ⟨Except.error e, 1, []⟩

/-- Trace of one `run_on_host` call: the returned `ExecResult` plus the
attempt count and backoff waits of its retry loop. -/
structure RunTrace where
  result : ExecResult
  attempts : Nat
  waits : List Rat
deriving DecidableEq, Repr

/-- `run_on_host`, ssh.py lines 106-151: record the start time, run the
retry loop, and convert an escaping exception (the bare
`except Exception` at line 141) into a failure result.  The semaphore
wrapping (line 114) has no effect on the value computed for this host; it
is modelled separately by the `SemStep` machine. -/
def run_on_host (host command : String) (options : ExecOptions)
    (env : HostEnv) (started ended : Rat) : RunTrace :=
  let t := retryLoop host started ended (connect_kwargs host options)
      (run_kwargs command options) env (stopBudget options.retry_attempts - 1) 1
  { result := match t.outcome with
              | Except.ok r => r
              | Except.error e => errorResult host started ended e
    attempts := t.attempts
    waits := t.waits }

/-- `execute_on_hosts`, ssh.py lines 154-170: one task per host, gathered
back in input order by `asyncio.gather`.  The per-host transport responses
come from the environment `env`. -/
def execute_on_hosts (hosts : List String) (command : String)
    (options : ExecOptions) (env : String → HostEnv)
    (started ended : Rat) : List ExecResult :=
  hosts.map (fun h => (run_on_host h command options (env h) started ended).result)

/-- `asyncio.gather` collection, modelled with an explicit completion
order: a slot per task starts empty (`none`), and when task `i` completes
its result is written into slot `i`.  `order` is the order in which the
scheduler completes the tasks. -/
def gatherFill {n : Nat} (f : Fin n → ExecResult) (order : List (Fin n)) :
    Fin n → Option ExecResult :=
  order.foldl (fun acc i => Function.update acc i (some (f i))) (fun _ => none)

/-- `ok_count`, cli.py line 240: `sum(1 for r in results if r.ok)`. -/
def ok_count (results : List ExecResult) : Nat :=
  results.countP (fun r => r.ok)

/-- `failed_count`, cli.py line 241: `len(results) - ok_count`. -/
def failed_count (results : List ExecResult) : Nat :=
  results.length - ok_count results

/-- `exit_code`, cli.py line 242 (`0 if failed_count == 0 else 1`), raised
as the process exit code by `typer.Exit(code=exit_code)` at line 325. -/
def exit_code (results : List ExecResult) : Nat :=
  if failed_count results = 0 then 0 else 1

/-! ### Small-step model of the shared semaphore

`execute_on_hosts` (ssh.py line 167) creates `asyncio.Semaphore(options.limit)`
and every `run_on_host` task wraps its whole body -- from the first
`_connect` call through the final close -- in `async with semaphore`
(line 114).  The machine below models the cooperative scheduler: each task
is `pending` until its acquire succeeds, then `active` for some number of
scheduler steps (the session executor body: connecting, running the
command, backoff sleeps, closing), then releases its permit and is `done`.
The scheduler picks any task at every step, so every interleaving the
asyncio event loop could produce is a path of this relation. -/

/-- Scheduling phase of one per-host task. -/
inductive Phase where
  | pending : Phase
  | active (work : Nat) : Phase
  | done : Phase
deriving DecidableEq, Repr

/-- Global scheduler state: the phase of each of the `n` tasks and the
number of free permits of the shared semaphore. -/
structure SemState (n : Nat) where
  phase : Fin n → Phase
  avail : Nat

/-- Initial state: all tasks pending, `K` permits free
(`asyncio.Semaphore(options.limit)`). -/
def semInit (n K : Nat) : SemState n :=
  { phase := fun _ => Phase.pending, avail := K }

/-- One scheduler step.  `acquire` admits a pending task when a permit is
free (entering `async with semaphore` decrements the counter) and assigns
it an arbitrary body length `w`; `work` runs one step of an active body;
`release` ends an active body that has finished, returning the permit
(leaving `async with semaphore` increments the counter, on every exit
path). -/
inductive SemStep (n : Nat) : SemState n → SemState n → Prop where
  | acquire (s : SemState n) (i : Fin n) (w a : Nat) :
      s.phase i = Phase.pending → s.avail = a + 1 →
      SemStep n s ⟨Function.update s.phase i (Phase.active w), a⟩
  | work (s : SemState n) (i : Fin n) (w : Nat) :
      s.phase i = Phase.active (w + 1) →
      SemStep n s ⟨Function.update s.phase i (Phase.active w), s.avail⟩
  | release (s : SemState n) (i : Fin n) :
      s.phase i = Phase.active 0 →
      SemStep n s ⟨Function.update s.phase i Phase.done, s.avail + 1⟩

/-- States the scheduler can reach from the start of a batch of `n` tasks
with concurrency limit `K`. -/
def Reachable (n K : Nat) (s : SemState n) : Prop :=
  Relation.ReflTransGen (SemStep n) (semInit n K) s

/-- Indicator: 1 when a task is inside its session executor body. -/
def phaseWeight : Phase → Nat
  | Phase.active _ => 1
  | _ => 0

/-- Number of session executor bodies currently active. -/
def activeCount {n : Nat} (ph : Fin n → Phase) : Nat :=
  ∑ j, phaseWeight (ph j)

/-! ### Concrete transport environments and option records

Used by witnesses and counterexamples: evaluating the model on concrete
inputs. -/

/-- Baseline options: the CLI defaults of cli.py lines 70-91 with one
retry attempt. -/
def optsBase : ExecOptions :=
  { username := some "root", port := some 22, identity := none,
    password := none, known_hosts := "off", connect_timeout := 10,
    pty := false, limit := 50, command_timeout := none, retry_attempts := 1 }

/-- Baseline options with two retry attempts. -/
def optsR2 : ExecOptions :=
  { optsBase with retry_attempts := 2 }

/-- Baseline options with three retry attempts. -/
def optsR3 : ExecOptions :=
  { optsBase with retry_attempts := 3 }

/-- A retryable transport exception: an `OSError` instance. -/
def excBoom : Exc :=
  { name := "OSError", msg := "boom", retryable := true }

/-- Transport in which every connection attempt raises `OSError`. -/
def envAllFail : HostEnv :=
  { connect := fun _ _ => Except.error excBoom
    run := fun _ _ => RunBehavior.completes (some 0) none none
    closeExc := fun _ => none }

/-- Transport in which connecting always succeeds and the command completes
with exit status 0. -/
def envOk : HostEnv :=
  { connect := fun _ _ => Except.ok ()
    run := fun _ _ => RunBehavior.completes (some 0) (some "out") none
    closeExc := fun _ => none }

/-- Transport in which connecting always succeeds; the command run raises
`OSError` on the first attempt and completes with exit status 0 afterwards. -/
def envRunRaisesOnce : HostEnv :=
  { connect := fun _ _ => Except.ok ()
    run := fun _ n => if n = 1 then RunBehavior.raises excBoom
                      else RunBehavior.completes (some 0) (some "done") none
    closeExc := fun _ => none }

/-- Transport in which connecting succeeds and the command completes with
no exit status: the remote process was terminated by a signal, so
`asyncssh` reports `exit_status = None` on the completed process. -/
def envSignal : HostEnv :=
  { connect := fun _ _ => Except.ok ()
    run := fun _ _ => RunBehavior.completes none none none
    closeExc := fun _ => none }

/-- A scheduler state with one task admitted: used to evaluate the
concurrency bound on a concrete reachable state. -/
def semWitnessState : SemState 2 :=
  { phase := Function.update (fun _ => Phase.pending) 0 (Phase.active 3)
    avail := 0 }

/-- A successful concrete result (for exercising the exit-code logic). -/
def resOk : ExecResult :=
  { host := "a", exit_status := some 0, stdout := "ok", stderr := "",
    ok := true, started_at := 0, ended_at := 1, error := none }

/-- A failed concrete result (for exercising the exit-code logic). -/
def resFail : ExecResult :=
  { host := "b", exit_status := none, stdout := "", stderr := "",
    ok := false, started_at := 0, ended_at := 1, error := some "OSError: boom" }

/-! ### Helper lemmas -/

/-- Every retry loop run makes at least one attempt. -/
theorem retryLoop_attempts_pos (host : String) (started ended : Rat)
    (ck : ConnectKwargs) (rk : RunKwargs) (env : HostEnv) (fuel n : Nat) :
    1 ≤ (retryLoop host started ended ck rk env fuel n).attempts := by
  cases fuel with
  | zero =>
    cases hb : attemptBody host started ended ck rk env n <;>
      simp [retryLoop, hb]
  | succ fuel =>
    cases hb : attemptBody host started ended ck rk env n with
    | ok r => simp [retryLoop, hb]
    | error e =>
      by_cases hr : e.retryable = true <;> simp [retryLoop, hb, hr]

/-- An attempt body only returns a result built from a completed command
run. -/
theorem attemptBody_ok (host : String) (started ended : Rat)
    (ck : ConnectKwargs) (rk : RunKwargs) (env : HostEnv) (n : Nat)
    (r : ExecResult)
    (h : attemptBody host started ended ck rk env n = Except.ok r) :
    ∃ es out err, env.run rk n = RunBehavior.completes es out err ∧
      r = completedResult host started ended es out err := by
  unfold attemptBody at h
  cases hc : env.connect ck n with
  | error e => rw [hc] at h; exact absurd h (by simp)
  | ok u =>
    rw [hc] at h
    cases hrun : env.run rk n with
    | completes es out err =>
      rw [hrun] at h
      exact ⟨es, out, err, rfl, by injection h with h2; exact h2.symm⟩
    | raises e => rw [hrun] at h; exact absurd h (by simp)

/-- A retry loop only returns a result built from a completed command
run. -/
theorem retryLoop_ok_shape (host : String) (started ended : Rat)
    (ck : ConnectKwargs) (rk : RunKwargs) (env : HostEnv) :
    ∀ fuel n r,
      (retryLoop host started ended ck rk env fuel n).outcome = Except.ok r →
      ∃ es out err, r = completedResult host started ended es out err := by
  intro fuel
  induction fuel with
  | zero =>
    intro n r h
    cases hb : attemptBody host started ended ck rk env n with
    | ok r2 =>
      rw [show (retryLoop host started ended ck rk env 0 n) =
            ⟨Except.ok r2, 1, []⟩ by simp [retryLoop, hb]] at h
      simp at h
      obtain ⟨es, out, err, _, hshape⟩ :=
        attemptBody_ok host started ended ck rk env n r2 hb
      exact ⟨es, out, err, h ▸ hshape⟩
    | error e =>
      rw [show (retryLoop host started ended ck rk env 0 n) =
            ⟨Except.error e, 1, []⟩ by simp [retryLoop, hb]] at h
      simp at h
  | succ fuel ih =>
    intro n r h
    cases hb : attemptBody host started ended ck rk env n with
    | ok r2 =>
      rw [show (retryLoop host started ended ck rk env (fuel + 1) n) =
            ⟨Except.ok r2, 1, []⟩ by simp [retryLoop, hb]] at h
      simp at h
      obtain ⟨es, out, err, _, hshape⟩ :=
        attemptBody_ok host started ended ck rk env n r2 hb
      exact ⟨es, out, err, h ▸ hshape⟩
    | error e =>
      by_cases hr : e.retryable = true
      · rw [show (retryLoop host started ended ck rk env (fuel + 1) n) =
              ⟨(retryLoop host started ended ck rk env fuel (n + 1)).outcome,
               (retryLoop host started ended ck rk env fuel (n + 1)).attempts + 1,
               backoffWait n ::
                 (retryLoop host started ended ck rk env fuel (n + 1)).waits⟩ by
              simp [retryLoop, hb, hr]] at h
        exact ih (n + 1) r h
      · rw [show (retryLoop host started ended ck rk env (fuel + 1) n) =
              ⟨Except.error e, 1, []⟩ by simp [retryLoop, hb, hr]] at h
        simp at h

/-- Every result produced by `run_on_host` echoes the input host. -/
theorem run_on_host_echoes_host (host command : String)
    (options : ExecOptions) (env : HostEnv) (started ended : Rat) :
    (run_on_host host command options env started ended).result.host = host := by
  unfold run_on_host
  cases hout : (retryLoop host started ended (connect_kwargs host options)
      (run_kwargs command options) env
      (stopBudget options.retry_attempts - 1) 1).outcome with
  | ok r =>
    obtain ⟨es, out, err, hr⟩ := retryLoop_ok_shape host started ended
      (connect_kwargs host options) (run_kwargs command options) env
      (stopBudget options.retry_attempts - 1) 1 r hout
    simp [hout, hr, completedResult]
  | error e => simp [hout, errorResult]

/-- The exceptions of the close calls are swallowed: the retry loop does
not depend on the `closeExc` component of the environment. -/
theorem retryLoop_closeExc_irrelevant (host : String) (started ended : Rat)
    (ck : ConnectKwargs) (rk : RunKwargs) (env : HostEnv)
    (f : Nat → Option Exc) :
    ∀ fuel n, retryLoop host started ended ck rk { env with closeExc := f } fuel n =
      retryLoop host started ended ck rk env fuel n := by
  intro fuel
  induction fuel with
  | zero => intro n; rfl
  | succ fuel ih =>
    intro n
    show (match attemptBody host started ended ck rk env n with
          | Except.ok r => (⟨Except.ok r, 1, []⟩ : LoopOut)
          | Except.error e =>
            if e.retryable then
              let rest := retryLoop host started ended ck rk
                { env with closeExc := f } fuel (n + 1)
              ⟨rest.outcome, rest.attempts + 1, backoffWait n :: rest.waits⟩
            else ⟨Except.error e, 1, []⟩) = _
    cases hb : attemptBody host started ended ck rk env n with
    | ok r => simp [retryLoop, hb]
    | error e =>
      by_cases hr : e.retryable = true <;> simp [retryLoop, hb, hr, ih]

/-- When every connection attempt raises a retryable exception, the loop
uses its whole budget and ends with an exception. -/
theorem retryLoop_all_fail (host : String) (started ended : Rat)
    (ck : ConnectKwargs) (rk : RunKwargs) (env : HostEnv)
    (hfail : ∀ m, ∃ e : Exc,
      env.connect ck m = Except.error e ∧ e.retryable = true) :
    ∀ fuel n, (retryLoop host started ended ck rk env fuel n).attempts = fuel + 1 ∧
      ∃ e : Exc,
        (retryLoop host started ended ck rk env fuel n).outcome = Except.error e := by
  intro fuel
  induction fuel with
  | zero =>
    intro n
    obtain ⟨e, he, _⟩ := hfail n
    have hb : attemptBody host started ended ck rk env n = Except.error e := by
      unfold attemptBody; rw [he]
    exact ⟨by simp [retryLoop, hb], e, by simp [retryLoop, hb]⟩
  | succ fuel ih =>
    intro n
    obtain ⟨e, he, hr⟩ := hfail n
    have hb : attemptBody host started ended ck rk env n = Except.error e := by
      unfold attemptBody; rw [he]
    obtain ⟨hatt, e2, hout⟩ := ih (n + 1)
    refine ⟨?_, e2, ?_⟩
    · simp [retryLoop, hb, hr, hatt]
    · simp [retryLoop, hb, hr, hout]

/-- The waits slept by a retry loop are the backoff values of the failed
attempts, in attempt order: starting the loop at attempt `n`, the `j`-th
wait is `backoffWait (n + j)`. -/
theorem retryLoop_waits_schedule (host : String) (started ended : Rat)
    (ck : ConnectKwargs) (rk : RunKwargs) (env : HostEnv) :
    ∀ fuel n, (retryLoop host started ended ck rk env fuel n).waits =
      (List.range ((retryLoop host started ended ck rk env fuel n).attempts - 1)).map
        (fun j => backoffWait (n + j)) := by
  intro fuel
  induction fuel with
  | zero =>
    intro n
    cases hb : attemptBody host started ended ck rk env n <;>
      simp [retryLoop, hb]
  | succ fuel ih =>
    intro n
    cases hb : attemptBody host started ended ck rk env n with
    | ok r => simp [retryLoop, hb]
    | error e =>
      by_cases hr : e.retryable = true
      · have hpos := retryLoop_attempts_pos host started ended ck rk env fuel (n + 1)
        obtain ⟨k, hk⟩ : ∃ k,
            (retryLoop host started ended ck rk env fuel (n + 1)).attempts = k + 1 :=
          ⟨(retryLoop host started ended ck rk env fuel (n + 1)).attempts - 1,
           by omega⟩
        simp only [retryLoop, hb, hr, if_true]
        rw [ih (n + 1), hk]
        simp only [Nat.add_sub_cancel, List.range_succ_eq_map, List.map_cons,
          List.map_map, Nat.add_zero]
        refine List.cons_eq_cons.2 ⟨rfl, ?_⟩
        apply List.map_congr_left
        intro j _
        simp only [Function.comp_apply]
        congr 1
        omega
      · simp [retryLoop, hb, hr]

/-- Positions not yet completed keep their previous slot content. -/
theorem gatherFill_loop_not_mem {n : Nat} (f : Fin n → ExecResult) :
    ∀ (order : List (Fin n)) (acc : Fin n → Option ExecResult) (i : Fin n),
      i ∉ order →
      order.foldl (fun acc j => Function.update acc j (some (f j))) acc i = acc i := by
  intro order
  induction order with
  | nil => intro acc i _; rfl
  | cons j rest ih =>
    intro acc i hi
    rw [List.mem_cons] at hi
    push_neg at hi
    simp only [List.foldl_cons]
    rw [ih _ i hi.2, Function.update_apply, if_neg hi.1]

/-- A completed position holds exactly the result of its own task. -/
theorem gatherFill_loop_mem {n : Nat} (f : Fin n → ExecResult) :
    ∀ (order : List (Fin n)) (acc : Fin n → Option ExecResult) (i : Fin n),
      i ∈ order →
      order.foldl (fun acc j => Function.update acc j (some (f j))) acc i =
        some (f i) := by
  intro order
  induction order with
  | nil => intro acc i hi; exact absurd hi (List.not_mem_nil i)
  | cons j rest ih =>
    intro acc i hi
    simp only [List.foldl_cons]
    by_cases hr : i ∈ rest
    · exact ih _ i hr
    · have hij : i = j := by
        rcases List.mem_cons.1 hi with h | h
        · exact h
        · exact absurd h hr
      subst hij
      rw [gatherFill_loop_not_mem f rest _ i hr, Function.update_same]

/-- When the scheduler completes every task, the filled slots are exactly
one result per task. -/
theorem gatherFill_complete {n : Nat} (f : Fin n → ExecResult)
    (order : List (Fin n)) (h : ∀ i, i ∈ order) :
    gatherFill f order = fun i => some (f i) :=
  funext fun i => gatherFill_loop_mem f order _ i (h i)

/-- Exchanging one slot of the phase assignment exchanges its weight in the
active count. -/
theorem activeCount_update {n : Nat} (f : Fin n → Phase) (i : Fin n)
    (v : Phase) :
    activeCount (Function.update f i v) + phaseWeight (f i) =
      phaseWeight v + activeCount f := by
  unfold activeCount
  have h1 : (∑ j, phaseWeight (Function.update f i v j)) =
      ∑ j, Function.update (fun j => phaseWeight (f j)) i (phaseWeight v) j :=
    Finset.sum_congr rfl (fun j _ => by
      by_cases hj : j = i <;> simp [Function.update_apply, hj])
  rw [h1, Finset.sum_update_of_mem (Finset.mem_univ i)]
  have h2 : (∑ j, phaseWeight (f j)) =
      phaseWeight (f i) + ∑ j ∈ Finset.univ \ {i}, phaseWeight (f j) := by
    rw [← Finset.erase_eq]
    exact (Finset.add_sum_erase _ _ (Finset.mem_univ i)).symm
  rw [h2]
  omega

/-- Each scheduler step preserves the permit accounting: free permits plus
active bodies equal the configured limit. -/
theorem semStep_invariant {n K : Nat} {s s2 : SemState n}
    (hinv : s.avail + activeCount s.phase = K) (st : SemStep n s s2) :
    s2.avail + activeCount s2.phase = K := by
  cases st with
  | acquire i w a hp ha =>
    have h := activeCount_update s.phase i (Phase.active w)
    rw [hp] at h
    simp only [phaseWeight] at h
    simp only [activeCount] at h hinv ⊢
    omega
  | work i w hp =>
    have h := activeCount_update s.phase i (Phase.active w)
    rw [hp] at h
    simp only [phaseWeight] at h
    simp only [activeCount] at h hinv ⊢
    omega
  | release i hp =>
    have h := activeCount_update s.phase i Phase.done
    rw [hp] at h
    simp only [phaseWeight] at h
    simp only [activeCount] at h hinv ⊢
    omega

/-- The permit accounting holds in every reachable scheduler state. -/
theorem reachable_invariant {n K : Nat} {s : SemState n}
    (h : Reachable n K s) : s.avail + activeCount s.phase = K := by
  unfold Reachable at h
  induction h with
  | refl => simp [semInit, activeCount, phaseWeight]
  | tail _ st ih => exact semStep_invariant ih st

/-! ### Claim theorems -/

/-- C2: in every run of the dispatcher with semaphore limit `K ≥ 1`, at no
reachable point of the cooperative schedule are more than `K` session
executor bodies (the region of `run_on_host` from the first connect through
the connection close, ssh.py lines 114-151) active concurrently. -/
theorem claim2_concurrency_bound (n K : Nat) (hK : 1 ≤ K) (s : SemState n)
    (h : Reachable n K s) : activeCount s.phase ≤ K := by
  have hinv := reachable_invariant h
  omega

/-- Witness for C2 at a concrete reachable state: two tasks, limit 1, one
task admitted. -/
theorem claim2_witness :
    1 ≤ 1 ∧ Reachable 2 1 semWitnessState ∧
      activeCount semWitnessState.phase ≤ 1 :=
  have hr : Reachable 2 1 semWitnessState :=
    Relation.ReflTransGen.single (SemStep.acquire (semInit 2 1) 0 3 0 rfl rfl)
  ⟨Nat.le_refl 1, hr, claim2_concurrency_bound 2 1 (Nat.le_refl 1) semWitnessState hr⟩

/-- C6: the `known_hosts` policy field of `ExecOptions` has no effect: two
option records differing only in that field produce the same keyword
arguments for the transport connect call (which always carry
`known_hosts = None`, ssh.py line 96), the same `run_on_host` trace, and
the same `execute_on_hosts` results. -/
theorem claim6_known_hosts_inert (host command : String)
    (options : ExecOptions) (kh : String) (env : HostEnv)
    (started ended : Rat) :
    connect_kwargs host { options with known_hosts := kh } =
      connect_kwargs host options ∧
    (connect_kwargs host options).known_hosts = none ∧
    run_on_host host command { options with known_hosts := kh } env started ended =
      run_on_host host command options env started ended ∧
    (∀ (hosts : List String) (envs : String → HostEnv),
      execute_on_hosts hosts command { options with known_hosts := kh } envs started ended =
        execute_on_hosts hosts command options envs started ended) :=
  ⟨rfl, rfl, rfl, fun _ _ => rfl⟩

/-- C9: the exit code computed by the CLI `run` command from a batch of
results is nonzero exactly when some result has `ok = False`, and is 0 when
every result has `ok = True`. -/
theorem claim9_exit_code_iff_failure (results : List ExecResult) :
    (exit_code results ≠ 0 ↔ ∃ r ∈ results, r.ok = false) ∧
    ((∀ r ∈ results, r.ok = true) → exit_code results = 0) := by
  have hle : ok_count results ≤ results.length :=
    List.countP_le_length _
  have hall : failed_count results = 0 ↔ ∀ r ∈ results, r.ok = true := by
    unfold failed_count
    rw [Nat.sub_eq_zero_iff_le]
    constructor
    · intro h
      have heq : ok_count results = results.length := le_antisymm hle h
      intro r hr
      exact List.countP_eq_length.1 heq r hr
    · intro h
      have h2 : List.countP (fun r => r.ok) results = results.length :=
        List.countP_eq_length.2 h
      unfold ok_count
      omega
  constructor
  · constructor
    · intro h
      by_cases hf : failed_count results = 0
      · exact absurd (by simp [exit_code, hf]) h
      · by_contra hno
        push_neg at hno
        have hta : ∀ r ∈ results, r.ok = true := by
          intro r hr
          cases hok : r.ok
          · exact absurd hok (hno r hr)
          · rfl
        exact hf (hall.2 hta)
    · rintro ⟨r, hr, hfalse⟩ hzero
      have hf : failed_count results ≠ 0 := by
        intro h0
        have htrue := hall.1 h0 r hr
        rw [htrue] at hfalse
        exact absurd hfalse (by simp)
      simp [exit_code, hf] at hzero
  · intro h
    simp [exit_code, hall.2 h]

/-- Witness for C9 on concrete batches: one failure forces exit code 1, an
all-ok batch yields 0. -/
theorem claim9_witness :
    exit_code [resOk, resFail] ≠ 0 ∧ exit_code [resOk] = 0 :=
  ⟨(claim9_exit_code_iff_failure [resOk, resFail]).1.mpr
      ⟨resFail, by simp, rfl⟩,
   (claim9_exit_code_iff_failure [resOk]).2
      (fun r hr => by rw [List.mem_singleton] at hr; subst hr; rfl)⟩

/-- C10: `run_on_host` clamps the attempt budget with
`max(1, options.retry_attempts)` (ssh.py line 117): a zero or negative
`retry_attempts` behaves exactly like 1, and every run makes at least one
connection attempt and returns a result. -/
theorem claim10_attempt_budget_clamped (host command : String)
    (options : ExecOptions) (env : HostEnv) (started ended : Rat)
    (r : Int) (hr : r ≤ 0) :
    run_on_host host command { options with retry_attempts := r } env started ended =
      run_on_host host command { options with retry_attempts := 1 } env started ended ∧
    1 ≤ (run_on_host host command options env started ended).attempts := by
  constructor
  · have h1 : stopBudget r = stopBudget 1 := by
      unfold stopBudget
      rw [max_eq_left (by omega : r ≤ (1 : Int)), max_eq_left (le_refl (1 : Int))]
    show (run_on_host host command { options with retry_attempts := r } env started ended) = _
    unfold run_on_host
    simp only [connect_kwargs, run_kwargs]
    rw [h1]
  · exact retryLoop_attempts_pos host started ended (connect_kwargs host options)
      (run_kwargs command options) env (stopBudget options.retry_attempts - 1) 1

/-- Witness for C10: with `retry_attempts = 0` the run behaves like one
attempt. -/
theorem claim10_witness :
    (0 : Int) ≤ 0 ∧
    (run_on_host "h" "true" { optsBase with retry_attempts := 0 } envOk 0 1 =
       run_on_host "h" "true" { optsBase with retry_attempts := 1 } envOk 0 1 ∧
     1 ≤ (run_on_host "h" "true" optsBase envOk 0 1).attempts) :=
  ⟨le_refl 0,
   claim10_attempt_budget_clamped "h" "true" optsBase envOk 0 1 0 (le_refl 0)⟩

/-- C4: when every connection attempt raises a transport error
(`asyncssh.Error` or `OSError`) and `retry_attempts = R ≥ 1`, `run_on_host`
makes exactly R connection attempts and returns a result with `ok = False`,
`exit_status = None`, empty output streams, and a non-empty error string of
the shape built at ssh.py line 150. -/
theorem claim4_retry_exhaustion (host command : String)
    (options : ExecOptions) (env : HostEnv) (started ended : Rat)
    (hfail : ∀ m, ∃ e : Exc,
      env.connect (connect_kwargs host options) m = Except.error e ∧
        e.retryable = true)
    (hR : 1 ≤ options.retry_attempts) :
    (run_on_host host command options env started ended).attempts =
      options.retry_attempts.toNat ∧
    (run_on_host host command options env started ended).result.ok = false ∧
    (run_on_host host command options env started ended).result.exit_status = none ∧
    (run_on_host host command options env started ended).result.stdout = "" ∧
    (run_on_host host command options env started ended).result.stderr = "" ∧
    ∃ e : Exc,
      (run_on_host host command options env started ended).result.error =
        some e.render ∧ e.render ≠ "" := by
  obtain ⟨hatt, e, hout⟩ := retryLoop_all_fail host started ended
    (connect_kwargs host options) (run_kwargs command options) env hfail
    (stopBudget options.retry_attempts - 1) 1
  have hbudget : stopBudget options.retry_attempts - 1 + 1 =
      options.retry_attempts.toNat := by
    unfold stopBudget
    rw [max_eq_right hR]
    omega
  refine ⟨?_, ?_, ?_, ?_, ?_, e, ?_, ?_⟩
  · show (retryLoop host started ended (connect_kwargs host options)
        (run_kwargs command options) env
        (stopBudget options.retry_attempts - 1) 1).attempts = _
    rw [hatt, hbudget]
  · simp [run_on_host, hout, errorResult]
  · simp [run_on_host, hout, errorResult]
  · simp [run_on_host, hout, errorResult]
  · simp [run_on_host, hout, errorResult]
  · simp [run_on_host, hout, errorResult]
  · intro hempty
    have hlen := congrArg String.length hempty
    rw [Exc.render, String.length_append, String.length_append] at hlen
    have h2 : (": ").length = 2 := rfl
    have h0 : ("" : String).length = 0 := rfl
    omega

/-- Witness for C4: a transport that always raises `OSError` with three
configured attempts. -/
theorem claim4_witness :
    (∀ m, ∃ e : Exc,
      envAllFail.connect (connect_kwargs "h" optsR3) m = Except.error e ∧
        e.retryable = true) ∧
    (1 : Int) ≤ optsR3.retry_attempts ∧
    ((run_on_host "h" "true" optsR3 envAllFail 0 1).attempts =
        optsR3.retry_attempts.toNat ∧
     (run_on_host "h" "true" optsR3 envAllFail 0 1).result.ok = false ∧
     (run_on_host "h" "true" optsR3 envAllFail 0 1).result.exit_status = none ∧
     (run_on_host "h" "true" optsR3 envAllFail 0 1).result.stdout = "" ∧
     (run_on_host "h" "true" optsR3 envAllFail 0 1).result.stderr = "" ∧
     ∃ e : Exc,
       (run_on_host "h" "true" optsR3 envAllFail 0 1).result.error =
         some e.render ∧ e.render ≠ "") :=
  have hf : ∀ m, ∃ e : Exc,
      envAllFail.connect (connect_kwargs "h" optsR3) m = Except.error e ∧
        e.retryable = true :=
    fun _ => ⟨excBoom, rfl, rfl⟩
  ⟨hf, by decide,
   claim4_retry_exhaustion "h" "true" optsR3 envAllFail 0 1 hf (by decide)⟩

/-- C1: for every host sequence (including the empty one) and every
transport environment, `execute_on_hosts` returns exactly one result per
input host, with `result[i].host = hosts[i]` in input order; and for every
completion order of the per-host tasks that completes each task, filling
the result slots in completion order reproduces exactly the returned list,
so no completion interleaving can drop, duplicate or reorder a result. -/
theorem claim1_one_result_per_host_in_input_order
    (hosts : List String) (command : String) (options : ExecOptions)
    (env : String → HostEnv) (started ended : Rat)
    (order : List (Fin hosts.length)) (horder : ∀ i, i ∈ order) :
    (execute_on_hosts hosts command options env started ended).length =
      hosts.length ∧
    (∀ i : Nat,
      ((execute_on_hosts hosts command options env started ended)[i]?).map
        (fun r => r.host) = hosts[i]?) ∧
    gatherFill
        (fun i => (run_on_host (hosts.get i) command options
          (env (hosts.get i)) started ended).result) order =
      fun i => (execute_on_hosts hosts command options env started ended)[i.val]? := by
  refine ⟨List.length_map _ _, ?_, ?_⟩
  · intro i
    simp only [execute_on_hosts, List.getElem?_map, Option.map_map]
    cases hi : hosts[i]? with
    | none => rfl
    | some h =>
      simp [Function.comp, run_on_host_echoes_host]
  · rw [gatherFill_complete _ order horder]
    funext i
    simp only [execute_on_hosts, List.getElem?_map,
      List.getElem?_eq_getElem i.isLt, Option.map_some', List.get_eq_getElem]

/-- Witness for C1: one host, completed under the one possible completion
order. -/
theorem claim1_witness :
    (∀ i : Fin (["a"] : List String).length, i ∈ ([0] : List (Fin 1))) ∧
    ((execute_on_hosts ["a"] "true" optsBase (fun _ => envOk) 0 1).length =
       (["a"] : List String).length ∧
     (∀ i : Nat,
       ((execute_on_hosts ["a"] "true" optsBase (fun _ => envOk) 0 1)[i]?).map
         (fun r => r.host) = (["a"] : List String)[i]?) ∧
     gatherFill
         (fun i => (run_on_host ((["a"] : List String).get i) "true" optsBase
           ((fun _ => envOk) ((["a"] : List String).get i)) 0 1).result)
         ([0] : List (Fin 1)) =
       fun i => (execute_on_hosts ["a"] "true" optsBase (fun _ => envOk) 0 1)[i.val]?) :=
  ⟨by decide,
   claim1_one_result_per_host_in_input_order ["a"] "true" optsBase
     (fun _ => envOk) 0 1 ([0] : List (Fin 1)) (by decide)⟩

/-- C5: fault containment and isolation.  First, changing anything about
the transport behaviour of other hosts (including arbitrary exceptions in
their connect, command run or close) never alters the result at position
`i`: that result only depends on the environment of host `i`.  Second, for
every host, every escaping exception -- each value of `Exc` models a Python
`Exception` instance raised in connect, command run, or (via the retry
filter) re-raised from the loop -- is converted by the handler at ssh.py
lines 141-151 into a normal returned `ExecResult`, never re-raised.
Third, exceptions raised by the close calls are swallowed and do not
change the outcome at all. -/
theorem claim5_fault_containment_and_isolation
    (hosts : List String) (command : String) (options : ExecOptions)
    (env env2 : String → HostEnv) (started ended : Rat)
    (i : Nat) (hi : i < hosts.length)
    (hagree : env (hosts.get ⟨i, hi⟩) = env2 (hosts.get ⟨i, hi⟩)) :
    (execute_on_hosts hosts command options env started ended)[i]? =
      (execute_on_hosts hosts command options env2 started ended)[i]? ∧
    (∀ (hst : String) (henv : HostEnv) (e : Exc),
      (retryLoop hst started ended (connect_kwargs hst options)
          (run_kwargs command options) henv
          (stopBudget options.retry_attempts - 1) 1).outcome = Except.error e →
      (run_on_host hst command options henv started ended).result =
        errorResult hst started ended e) ∧
    (∀ (hst : String) (henv : HostEnv) (f : Nat → Option Exc),
      run_on_host hst command options { henv with closeExc := f } started ended =
        run_on_host hst command options henv started ended) := by
  refine ⟨?_, ?_, ?_⟩
  · simp only [execute_on_hosts, List.getElem?_map,
      List.getElem?_eq_getElem hi, Option.map_some']
    rw [show hosts[i] = hosts.get ⟨i, hi⟩ from rfl, hagree]
  · intro hst henv e hout
    simp [run_on_host, hout]
  · intro hst henv f
    unfold run_on_host
    rw [retryLoop_closeExc_irrelevant]

/-- Witness for C5: two hosts whose environments agree on host `a` while a
sibling host `b` has a transport that always fails. -/
theorem claim5_witness :
    ((fun _ => envOk) ((["a", "b"] : List String).get ⟨0, by decide⟩) =
       (fun h => if h = "b" then envAllFail else envOk)
         ((["a", "b"] : List String).get ⟨0, by decide⟩)) ∧
    ((execute_on_hosts ["a", "b"] "true" optsBase (fun _ => envOk) 0 1)[0]? =
       (execute_on_hosts ["a", "b"] "true" optsBase
         (fun h => if h = "b" then envAllFail else envOk) 0 1)[0]? ∧
     (∀ (hst : String) (henv : HostEnv) (e : Exc),
       (retryLoop hst 0 1 (connect_kwargs hst optsBase)
           (run_kwargs "true" optsBase) henv
           (stopBudget optsBase.retry_attempts - 1) 1).outcome = Except.error e →
       (run_on_host hst "true" optsBase henv 0 1).result =
         errorResult hst 0 1 e) ∧
     (∀ (hst : String) (henv : HostEnv) (f : Nat → Option Exc),
       run_on_host hst "true" optsBase { henv with closeExc := f } 0 1 =
         run_on_host hst "true" optsBase henv 0 1)) :=
  have hagree : (fun _ => envOk) ((["a", "b"] : List String).get ⟨0, by decide⟩) =
      (fun h => if h = "b" then envAllFail else envOk)
        ((["a", "b"] : List String).get ⟨0, by decide⟩) := by
    show envOk = if ("a" : String) = "b" then envAllFail else envOk
    rw [if_neg (by decide)]
  ⟨hagree,
   claim5_fault_containment_and_isolation ["a", "b"] "true" optsBase
     (fun _ => envOk) (fun h => if h = "b" then envAllFail else envOk) 0 1 0
     (by decide) hagree⟩

/-- C3 counterexample: with `retry_attempts = 2`, a transport whose connect
succeeds on attempt 1 but whose command run raises `OSError` (a retried
exception class) makes `run_on_host` perform a second connection attempt
after the command already started running -- the tenacity retry region
(ssh.py lines 116-140) encloses `_run_command`, so a retryable exception
raised during command execution reconnects instead of terminating the
retry loop as the claim states.  The run then completes on attempt 2. -/
theorem claim3_counterexample :
    envRunRaisesOnce.connect (connect_kwargs "h" optsR2) 1 = Except.ok () ∧
    envRunRaisesOnce.run (run_kwargs "true" optsR2) 1 =
      RunBehavior.raises excBoom ∧
    (run_on_host "h" "true" optsR2 envRunRaisesOnce 0 1).attempts = 2 ∧
    (run_on_host "h" "true" optsR2 envRunRaisesOnce 0 1).result.ok = true :=
  ⟨rfl, rfl, rfl, rfl⟩

/-- C3 amended: the retry loop is ended by a returned result (a completed
command run, whatever its exit status) and by any non-retryable exception;
but an exception of the retried classes (`asyncssh.Error`, `OSError`),
whether raised while connecting or while the command was running, triggers
a further connection attempt whenever budget remains, and ends the loop
(reraising) only on the final allowed attempt. -/
theorem claim3_amended_retry_condition (host : String) (started ended : Rat)
    (ck : ConnectKwargs) (rk : RunKwargs) (env : HostEnv) (fuel n : Nat) :
    (∀ r, attemptBody host started ended ck rk env n = Except.ok r →
      retryLoop host started ended ck rk env fuel n = ⟨Except.ok r, 1, []⟩) ∧
    (∀ e, attemptBody host started ended ck rk env n = Except.error e →
      e.retryable = false →
      retryLoop host started ended ck rk env fuel n = ⟨Except.error e, 1, []⟩) ∧
    (∀ e, attemptBody host started ended ck rk env n = Except.error e →
      e.retryable = true →
      retryLoop host started ended ck rk env (fuel + 1) n =
        ⟨(retryLoop host started ended ck rk env fuel (n + 1)).outcome,
         (retryLoop host started ended ck rk env fuel (n + 1)).attempts + 1,
         backoffWait n :: (retryLoop host started ended ck rk env fuel (n + 1)).waits⟩) ∧
    (∀ e, attemptBody host started ended ck rk env n = Except.error e →
      retryLoop host started ended ck rk env 0 n = ⟨Except.error e, 1, []⟩) := by
  refine ⟨?_, ?_, ?_, ?_⟩
  · intro r hb
    cases fuel <;> simp [retryLoop, hb]
  · intro e hb hr
    cases fuel <;> simp [retryLoop, hb, hr]
  · intro e hb hr
    simp [retryLoop, hb, hr]
  · intro e hb
    simp [retryLoop, hb]

/-- Witness for the amended C3: a completed first attempt ends the loop at
once. -/
theorem claim3_witness :
    attemptBody "h" 0 1 (connect_kwargs "h" optsBase)
        (run_kwargs "true" optsBase) envOk 1 =
      Except.ok (completedResult "h" 0 1 (some 0) (some "out") none) ∧
    retryLoop "h" 0 1 (connect_kwargs "h" optsBase)
        (run_kwargs "true" optsBase) envOk 0 1 =
      ⟨Except.ok (completedResult "h" 0 1 (some 0) (some "out") none), 1, []⟩ :=
  ⟨rfl,
   (claim3_amended_retry_condition "h" 0 1 (connect_kwargs "h" optsBase)
      (run_kwargs "true" optsBase) envOk 0 1).1
     (completedResult "h" 0 1 (some 0) (some "out") none) rfl⟩

/-- For attempt numbers from 1 on, the tenacity wait reduces to the capped
doubling value: the lower clamp at 0.5 never binds because the uncapped
value is already at least 0.5. -/
theorem backoffWait_eq_min (m : Nat) (hm : 1 ≤ m) :
    backoffWait m = min ((1/2 : Rat) * 2 ^ (m - 1)) 5 := by
  unfold backoffWait wait_exponential
  have hpow : (1 : Rat) ≤ 2 ^ (m - 1) := one_le_pow₀ (by norm_num)
  have hv : (1/2 : Rat) ≤ (1/2) * 2 ^ (m - 1) := by nlinarith
  have h5 : (1/2 : Rat) ≤ 5 := by norm_num
  rw [show max (0 : Rat) (1/2) = 1/2 from max_eq_right (by norm_num)]
  exact max_eq_right (le_min hv h5)

/-- C7: the waits slept between consecutive connection attempts of one
target follow the tenacity schedule
`wait_exponential(multiplier=0.5, min=0.5, max=5)` in attempt order: the
wait before retry `k + 1` is `backoffWait k`; the sequence starts at 0.5s,
doubles per attempt, and is capped at 5s, giving 0.5, 1, 2, 4, 5, 5, ... -/
theorem claim7_backoff_schedule (host command : String)
    (options : ExecOptions) (env : HostEnv) (started ended : Rat) :
    (run_on_host host command options env started ended).waits =
      (List.range
          ((run_on_host host command options env started ended).attempts - 1)).map
        (fun j => backoffWait (1 + j)) ∧
    backoffWait 1 = 1/2 ∧ backoffWait 2 = 1 ∧ backoffWait 3 = 2 ∧
    backoffWait 4 = 4 ∧ backoffWait 5 = 5 ∧ backoffWait 6 = 5 ∧
    (∀ m, 1 ≤ m → backoffWait (m + 1) = min (2 * backoffWait m) 5) ∧
    (∀ m, 5 ≤ m → backoffWait m = 5) := by
  refine ⟨?_, ?_, ?_, ?_, ?_, ?_, ?_, ?_, ?_⟩
  · exact retryLoop_waits_schedule host started ended (connect_kwargs host options)
      (run_kwargs command options) env (stopBudget options.retry_attempts - 1) 1
  · norm_num [backoffWait, wait_exponential]
  · norm_num [backoffWait, wait_exponential]
  · norm_num [backoffWait, wait_exponential]
  · norm_num [backoffWait, wait_exponential]
  · norm_num [backoffWait, wait_exponential]
  · norm_num [backoffWait, wait_exponential]
  · intro m hm
    obtain ⟨k, rfl⟩ : ∃ k, m = k + 1 := ⟨m - 1, by omega⟩
    rw [backoffWait_eq_min (k + 1) (by omega),
        backoffWait_eq_min (k + 1 + 1) (by omega)]
    rw [show k + 1 + 1 - 1 = k + 1 from rfl, show k + 1 - 1 = k from rfl, pow_succ]
    rcases le_total ((1/2 : Rat) * 2 ^ k) 5 with h | h
    · rw [min_eq_left h,
          show (1/2 : Rat) * (2 ^ k * 2) = 2 * ((1/2) * 2 ^ k) by ring]
    · rw [min_eq_right h,
          show (1/2 : Rat) * (2 ^ k * 2) = 2 * ((1/2) * 2 ^ k) by ring,
          min_eq_right (by linarith : (5 : Rat) ≤ 2 * ((1/2) * 2 ^ k)),
          min_eq_right (by norm_num : (5 : Rat) ≤ 2 * 5)]
  · intro m hm
    rw [backoffWait_eq_min m (by omega)]
    have h4 : (2 : Rat) ^ 4 ≤ 2 ^ (m - 1) :=
      pow_le_pow_right₀ (by norm_num : (1 : Rat) ≤ 2) (by omega)
    have h16 : (2 : Rat) ^ 4 = 16 := by norm_num
    rw [min_eq_right (by linarith)]

/-- Witness for C7: the cap applies from the fifth failed attempt on. -/
theorem claim7_witness : 5 ≤ 5 ∧ backoffWait 5 = 5 :=
  ⟨Nat.le_refl 5,
   (claim7_backoff_schedule "h" "true" optsBase envOk 0 1).2.2.2.2.2.2.2.2 5
     (Nat.le_refl 5)⟩

/-- C8 counterexample: a connection succeeds and the command completes with
no exit status (the remote process was terminated by a signal, so
`completed.exit_status` is `None`).  Lines 126-134 of ssh.py then build a
result with `ok = False` and `exit_status = None` whose `error` is `None`:
a result that is failed and has no exit code but carries no error string,
refuting the claimed equivalence. -/
theorem claim8_counterexample :
    (run_on_host "h" "true" optsBase envSignal 0 1).result.ok = false ∧
    (run_on_host "h" "true" optsBase envSignal 0 1).result.exit_status = none ∧
    (run_on_host "h" "true" optsBase envSignal 0 1).result.error = none :=
  ⟨rfl, rfl, rfl⟩

/-- C8 amended: `error` is non-None exactly on the exception path.  A
result built from a completed command run always has `error = None` (even
when the completed run reported no exit status); a result from the
exception path always has `error` of the rendered form together with
`ok = False` and `exit_status = None`; hence a present `error` implies
`ok = False` and `exit_status = None`, but the converse direction fails in
the signal-termination case of the counterexample. -/
theorem claim8_amended_error_iff_exception_path (host command : String)
    (options : ExecOptions) (env : HostEnv) (started ended : Rat) :
    (∀ r, (retryLoop host started ended (connect_kwargs host options)
        (run_kwargs command options) env
        (stopBudget options.retry_attempts - 1) 1).outcome = Except.ok r →
      (run_on_host host command options env started ended).result = r ∧
        r.error = none) ∧
    (∀ e, (retryLoop host started ended (connect_kwargs host options)
        (run_kwargs command options) env
        (stopBudget options.retry_attempts - 1) 1).outcome = Except.error e →
      (run_on_host host command options env started ended).result.error =
          some e.render ∧
        (run_on_host host command options env started ended).result.ok = false ∧
        (run_on_host host command options env started ended).result.exit_status =
          none) ∧
    ((run_on_host host command options env started ended).result.error ≠ none →
      (run_on_host host command options env started ended).result.ok = false ∧
      (run_on_host host command options env started ended).result.exit_status =
        none) := by
  refine ⟨?_, ?_, ?_⟩
  · intro r hout
    obtain ⟨es, out, err, hshape⟩ := retryLoop_ok_shape host started ended
      (connect_kwargs host options) (run_kwargs command options) env
      (stopBudget options.retry_attempts - 1) 1 r hout
    exact ⟨by simp [run_on_host, hout], by rw [hshape]; rfl⟩
  · intro e hout
    refine ⟨?_, ?_, ?_⟩ <;> simp [run_on_host, hout, errorResult]
  · intro hne
    cases hout : (retryLoop host started ended (connect_kwargs host options)
        (run_kwargs command options) env
        (stopBudget options.retry_attempts - 1) 1).outcome with
    | ok r =>
      obtain ⟨es, out, err, hshape⟩ := retryLoop_ok_shape host started ended
        (connect_kwargs host options) (run_kwargs command options) env
        (stopBudget options.retry_attempts - 1) 1 r hout
      exact absurd (by simp [run_on_host, hout, hshape, completedResult]) hne
    | error e =>
      constructor <;> simp [run_on_host, hout, errorResult]

/-- Witness for the amended C8: the exception path of a transport that
always fails carries the rendered error string with a failed, exit-less
result. -/
theorem claim8_witness :
    (retryLoop "h" 0 1 (connect_kwargs "h" optsBase)
        (run_kwargs "true" optsBase) envAllFail
        (stopBudget optsBase.retry_attempts - 1) 1).outcome =
      Except.error excBoom ∧
    ((run_on_host "h" "true" optsBase envAllFail 0 1).result.error =
        some excBoom.render ∧
      (run_on_host "h" "true" optsBase envAllFail 0 1).result.ok = false ∧
      (run_on_host "h" "true" optsBase envAllFail 0 1).result.exit_status =
        none) :=
  ⟨rfl,
   (claim8_amended_error_iff_exception_path "h" "true" optsBase envAllFail 0 1).2.1
     excBoom rfl⟩

end Scatter
